import Mathlib

/-!
Shallow embedding of the Story/Engagement + Gamification subsystem of the
LazarusStories repository (storiesandpostsmanagement package).

Conventions of the embedding:
* Timestamps are modelled as seconds since an epoch (`Nat`).  The source
  stores ISO-8601 strings whose lexicographic order is chronological order,
  and compares `datetime` differences in seconds/hours/days; the integer
  model preserves exactly those comparisons.
* SQLite tables are modelled as Lean lists of records; `UPDATE ... WHERE
  id = ?` is a map over the rows matching the id, and the statement's
  rowcount is `true` iff some row matched (SQLite counts a row as changed
  even when the new values equal the old ones).
* `INSERT OR IGNORE` into a table with a UNIQUE constraint is an append
  guarded by a membership test, returning whether a row was inserted.
* Integer columns are `Int` (SQLite INTEGER), counts of rows are `Nat`
  coerced to `Int` where the source mixes them.
* The clock (`datetime.now()`) is passed explicitly as a `now : Nat`
  argument, per the spec's injectable-clock interface.
-/

/-! ## config.py -/

def VALID_CATEGORIES : List String :=
  ["Life Lessons", "Historical Events", "Family Traditions",
   "Career Journey", "Hobbies & Skills", "Travel Adventures"]

def VALID_PRIVACY_OPTIONS : List String :=
  ["Public", "Friends Only", "Specific Groups"]

def EDIT_LOCK_HOURS : Nat := 24

def SOFT_DELETE_DAYS : Nat := 7

def ACHIEVEMENT_RULE_TYPES : List String :=
  ["stories_created_total", "comments_written_total", "likes_received_total",
   "shares_received_total", "days_active_streak"]

/-! ## models/story_post.py -/

structure StoryPost where
  id : Option Nat := none
  author_id : Option Nat := none
  caption : String
  description : String
  tags : List String := []
  event_title : Option String := none
  category : String
  privacy : String
  allowed_groups : List String := []
  scheduled_at : Option Nat := none
  media_paths : List String := []
  likes_count : Int := 0
  comments_count : Int := 0
  shares_count : Int := 0
  created_at : Nat := 0
  updated_at : Nat := 0
  is_deleted : Bool := false
  deleted_at : Option Nat := none
deriving DecidableEq

/-- Python `tag.lstrip('#')`: removes every leading `'#'` character. -/
def lstrip_hash (t : String) : String :=
  ⟨t.data.dropWhile (fun c => c == '#')⟩

/-- Python `str.strip()`: drop leading and trailing whitespace. -/
def py_strip (s : String) : String :=
  ⟨((s.data.dropWhile Char.isWhitespace).reverse.dropWhile Char.isWhitespace).reverse⟩

/-- One character of the tag regex `[a-zA-Z0-9_]` (ASCII only, as in `re`). -/
def tag_char (c : Char) : Bool :=
  c.isAlpha || c.isDigit || c == '_'

/-- `re.compile(r'^[a-zA-Z0-9_]+$').match`: nonempty and all chars allowed. -/
def tag_pattern_match (s : String) : Bool :=
  !s.data.isEmpty && s.data.all tag_char

def StoryPost.validate_caption (p : StoryPost) : Option String :=
  if py_strip p.caption = "" then some "Caption is required"
  else if 120 < p.caption.length then some "Caption must be 120 characters or less"
  else none

def StoryPost.validate_description (p : StoryPost) : Option String :=
  if py_strip p.description = "" then some "Description is required"
  else if p.description.length < 20 then some "Description must be at least 20 characters"
  else none

def StoryPost.validate_tags (p : StoryPost) : Option String :=
  if 10 < p.tags.length then some "Maximum 10 tags allowed"
  else if p.tags.all (fun t => tag_pattern_match (lstrip_hash t)) then none
  else some "Tags can only contain letters, numbers, and underscores"

def StoryPost.validate_category (p : StoryPost) : Option String :=
  if p.category = "" then some "Category is required"
  else if VALID_CATEGORIES.contains p.category then none
  else some "Please select a valid category"

def StoryPost.validate_privacy (p : StoryPost) : Option String :=
  if p.privacy = "" then some "Privacy setting is required"
  else if VALID_PRIVACY_OPTIONS.contains p.privacy then none
  else some "Please select a valid privacy setting"

def StoryPost.validate_allowed_groups (p : StoryPost) : Option String :=
  if p.allowed_groups.isEmpty then some "Please specify at least one group"
  else none

/-- One entry of the field-name → error-message mapping. -/
def err_entry (field : String) : Option String → List (String × String)
  | none => []
  | some e => [(field, e)]

/-- `StoryPost.validate`: the field → error mapping, empty iff valid. -/
def StoryPost.validate (p : StoryPost) : List (String × String) :=
  err_entry "caption" p.validate_caption ++
  err_entry "description" p.validate_description ++
  err_entry "tags" p.validate_tags ++
  err_entry "category" p.validate_category ++
  err_entry "privacy" p.validate_privacy ++
  (if p.privacy = "Specific Groups" then err_entry "allowed_groups" p.validate_allowed_groups
   else [])

/-- `(now - created).total_seconds() / 3600 < EDIT_LOCK_HOURS`. -/
def StoryPost.is_editable (p : StoryPost) (now : Nat) : Bool :=
  now - p.created_at < EDIT_LOCK_HOURS * 3600

/-- `(now - deleted).days < 7`, requiring `is_deleted` and a `deleted_at`. -/
def StoryPost.can_be_restored (p : StoryPost) (now : Nat) : Bool :=
  if !p.is_deleted then false
  else
    match p.deleted_at with
    | none => false
    | some d => (now - d) / 86400 < SOFT_DELETE_DAYS

def StoryPost.is_published (p : StoryPost) (now : Nat) : Bool :=
  match p.scheduled_at with
  | none => true
  | some s => s ≤ now

def StoryPost.clean_tags (p : StoryPost) : StoryPost :=
  { p with tags := p.tags.map lstrip_hash }

/-! ## models/comment.py -/

structure Comment where
  id : Option Nat := none
  story_id : Nat
  author_name : String := ""
  author_id : Option Nat := none
  content : String := ""
  created_at : Nat := 0
deriving DecidableEq

/-- The persistent store backing the stories and comments tables. -/
structure DB where
  stories : List StoryPost
  comments : List Comment
deriving DecidableEq

/-! ## repositories/story_repository.py -/

/-- `SELECT * FROM stories WHERE id = ?` (first row). -/
def find_by_id (st : List StoryPost) (i : Nat) : Option StoryPost :=
  st.find? (fun r => r.id == some i)

/-- `UPDATE stories SET ... WHERE id = ?`: rewrite every row matching the id. -/
def update_matching (st : List StoryPost) (i : Nat) (f : StoryPost → StoryPost) :
    List StoryPost :=
  st.map (fun r => if r.id == some i then f r else r)

/-- SQLite rowcount of an `UPDATE ... WHERE id = ?`: some row matched. -/
def row_matched (st : List StoryPost) (i : Nat) : Bool :=
  st.any (fun r => r.id == some i)

/-- Contiguous-substring test on character lists. -/
def has_substr (needle : List Char) : List Char → Bool
  | [] => needle.isEmpty
  | c :: cs => needle.isPrefixOf (c :: cs) || has_substr needle cs

/-- All suffixes of a character list (longest first, ending with `[]`). -/
def str_tails : List Char → List (List Char)
  | [] => [[]]
  | c :: cs => (c :: cs) :: str_tails cs

/-- SQLite LIKE pattern matching: `'%'` matches any run of characters,
`'_'` matches exactly one, any other pattern character matches itself. -/
def like_match : List Char → List Char → Bool
  | [], s => s.isEmpty
  | p :: ps, s =>
      if p = '%' then (str_tails s).any (fun t => like_match ps t)
      else if p = '_' then
        match s with
        | [] => false
        | _ :: cs => like_match ps cs
      else
        match s with
        | [] => false
        | c :: cs => p == c && like_match ps cs

/-- `x LIKE ?` with parameter `f"%{search}%"` in `find_all`: the search term
is interpolated unescaped, so `'%'` and `'_'` inside it act as wildcards;
SQLite LIKE is ASCII case-insensitive (modelled by lowering both sides). -/
def like_ci (search s : String) : Bool :=
  like_match ('%' :: (search.data.map Char.toLower ++ ['%'])) (s.data.map Char.toLower)

/-- The spec's wording for the search filter: the term occurs in the field
as a literal case-insensitive substring (no wildcard interpretation). -/
def substr_ci (pat s : String) : Bool :=
  has_substr (pat.data.map Char.toLower) (s.data.map Char.toLower)

/-- The (lowered) search term contains no LIKE wildcard characters. -/
def no_wildcards (q : String) : Bool :=
  (q.data.map Char.toLower).all (fun c => !(c == '%') && !(c == '_'))

/-- The WHERE clause of `find_all`. -/
def matches_filters (search category : Option String) (include_deleted : Bool)
    (now : Nat) (s : StoryPost) : Bool :=
  (include_deleted || !s.is_deleted) &&
  (match s.scheduled_at with
   | none => true
   | some t => t ≤ now) &&
  (match search with
   | none => true
   | some q => like_ci q s.caption || like_ci q s.description) &&
  (match category with
   | none => true
   | some c => s.category == c)

/-- Insertion step of a comparison sort (models SQL ORDER BY). -/
def ord_insert (le : α → α → Bool) (a : α) : List α → List α
  | [] => [a]
  | b :: bs => if le a b then a :: b :: bs else b :: ord_insert le a bs

/-- Comparison sort used to model SQL ORDER BY clauses. -/
def ord_sort (le : α → α → Bool) : List α → List α
  | [] => []
  | a :: as => ord_insert le a (ord_sort le as)

/-- The ORDER BY of `find_all`: likes DESC / comments DESC / created_at DESC. -/
def story_le (sort_by : String) (a b : StoryPost) : Bool :=
  if sort_by == "likes" then decide (b.likes_count ≤ a.likes_count)
  else if sort_by == "comments" then decide (b.comments_count ≤ a.comments_count)
  else decide (b.created_at ≤ a.created_at)

def StoryRepository.find_all (st : List StoryPost) (search category : Option String)
    (sort_by : String) (include_deleted : Bool) (now : Nat) : List StoryPost :=
  ord_sort (story_le sort_by) (st.filter (matches_filters search category include_deleted now))

/-- `update`: overwrite every column of the row with the story's fields,
refreshing `updated_at`; fails when the story has no id or no row matches. -/
def StoryRepository.update (st : List StoryPost) (p : StoryPost) (now : Nat) :
    List StoryPost × Bool :=
  match p.id with
  | none => (st, false)
  | some i =>
      (update_matching st i (fun _ => { p with updated_at := now }), row_matched st i)

def StoryRepository.soft_delete (st : List StoryPost) (i : Nat) (now : Nat) :
    List StoryPost × Bool :=
  (update_matching st i (fun r => { r with is_deleted := true, deleted_at := some now }),
   row_matched st i)

/-- `UPDATE stories SET is_deleted = 0, deleted_at = NULL WHERE id = ?`:
reports success whenever a row matched, with no check that it was deleted. -/
def StoryRepository.restore (st : List StoryPost) (i : Nat) : List StoryPost × Bool :=
  (update_matching st i (fun r => { r with is_deleted := false, deleted_at := none }),
   row_matched st i)

def StoryRepository.find_deleted (st : List StoryPost) (now : Nat) : List StoryPost :=
  (ord_sort (fun a b => decide ((b.deleted_at.getD 0) ≤ (a.deleted_at.getD 0)))
    (st.filter (fun s => s.is_deleted))).filter (fun s => s.can_be_restored now)

/-- `UPDATE ... SET likes_count = likes_count + 1 WHERE id = ? RETURNING likes_count`. -/
def StoryRepository.increment_likes (st : List StoryPost) (i : Nat) : List StoryPost × Int :=
  let st' := update_matching st i (fun r => { r with likes_count := r.likes_count + 1 })
  (st', ((find_by_id st' i).map (fun r => r.likes_count)).getD 0)

/-- `UPDATE ... SET likes_count = MAX(0, likes_count - 1) ... RETURNING likes_count`. -/
def StoryRepository.decrement_likes (st : List StoryPost) (i : Nat) : List StoryPost × Int :=
  let st' := update_matching st i (fun r => { r with likes_count := max 0 (r.likes_count - 1) })
  (st', ((find_by_id st' i).map (fun r => r.likes_count)).getD 0)

def StoryRepository.increment_shares (st : List StoryPost) (i : Nat) : List StoryPost × Int :=
  let st' := update_matching st i (fun r => { r with shares_count := r.shares_count + 1 })
  (st', ((find_by_id st' i).map (fun r => r.shares_count)).getD 0)

/-! ## repositories/comment_repository.py -/

/-- `lastrowid` model: one past the largest id in the table. -/
def next_row_id (ids : List (Option Nat)) : Nat :=
  1 + ids.foldl (fun m x => max m (x.getD 0)) 0

/-- `create`: insert the comment and increment the story's `comments_count`. -/
def CommentRepository.create (db : DB) (c : Comment) : DB × Nat :=
  let cid := next_row_id (db.comments.map (fun x => x.id))
  let comments := db.comments ++ [{ c with id := some cid }]
  let stories := update_matching db.stories c.story_id
    (fun r => { r with comments_count := r.comments_count + 1 })
  ({ stories := stories, comments := comments }, cid)

/-- `delete`: look up the owning story, delete the comment, decrement the
story's `comments_count` floored at 0; a missing comment is a failure no-op. -/
def CommentRepository.delete (db : DB) (cid : Nat) : DB × Bool :=
  match db.comments.find? (fun x => x.id == some cid) with
  | none => (db, false)
  | some c =>
      let comments := db.comments.filter (fun x => !(x.id == some cid))
      let stories := update_matching db.stories c.story_id
        (fun r => { r with comments_count := max 0 (r.comments_count - 1) })
      ({ stories := stories, comments := comments }, true)

/-! ## models/badge.py, models/achievement.py -/

structure Badge where
  id : Nat
  title : String := ""
  description : String := ""
  icon_url : String := ""
  sort_order : Int := 0
deriving DecidableEq

structure Achievement where
  id : Nat
  title : String := ""
  rule_type : String
  rule_value : Int
  active : Bool := true
  badge_ids : List Nat := []
deriving DecidableEq

/-- The `user_achievements` and `user_badges` award-ledger tables, as lists of
(user_id, achievement_id) resp. (user_id, badge_id) pairs. -/
structure Ledger where
  user_achievements : List (Nat × Nat)
  user_badges : List (Nat × Nat)
deriving DecidableEq

/-- A newly-earned badge dict returned by `evaluate_and_award`. -/
structure BadgeInfo where
  badge_id : Nat
  title : String
  description : String
  icon_url : String
deriving DecidableEq

/-! ## repositories/user_progress_repository.py -/

structure UserStats where
  stories_created_total : Int
  comments_written_total : Int
  likes_received_total : Int
  shares_received_total : Int
  days_active_streak : Int
deriving DecidableEq

/-- `get_user_stats`: aggregates over the stories/comments tables; the streak
is stubbed to 0 in the source. -/
def UserProgressRepository.get_user_stats (db : DB) (user_id : Option Nat) : UserStats :=
  match user_id with
  | none =>
      { stories_created_total := 0, comments_written_total := 0,
        likes_received_total := 0, shares_received_total := 0, days_active_streak := 0 }
  | some u =>
      let mine := db.stories.filter (fun s => s.author_id == some u && !s.is_deleted)
      { stories_created_total := (mine.length : Int),
        comments_written_total := ((db.comments.filter (fun c => c.author_id == some u)).length : Int),
        likes_received_total := (mine.map (fun s => s.likes_count)).sum,
        shares_received_total := (mine.map (fun s => s.shares_count)).sum,
        days_active_streak := 0 }

def UserProgressRepository.has_achievement (led : Ledger) (u a : Nat) : Bool :=
  led.user_achievements.contains (u, a)

def UserProgressRepository.has_badge (led : Ledger) (u b : Nat) : Bool :=
  led.user_badges.contains (u, b)

/-- `INSERT OR IGNORE INTO user_achievements`: returns whether a row was inserted. -/
def UserProgressRepository.award_achievement (led : Ledger) (u a : Nat) : Ledger × Bool :=
  if led.user_achievements.contains (u, a) then (led, false)
  else ({ led with user_achievements := led.user_achievements ++ [(u, a)] }, true)

/-- `INSERT OR IGNORE INTO user_badges`: returns whether a row was inserted. -/
def UserProgressRepository.award_badge (led : Ledger) (u b : Nat) : Ledger × Bool :=
  if led.user_badges.contains (u, b) then (led, false)
  else ({ led with user_badges := led.user_badges ++ [(u, b)] }, true)

/-! ## repositories/achievement_repository.py, badge_repository.py -/

/-- `SELECT * FROM achievements WHERE active = 1 ORDER BY id ASC`. -/
def AchievementRepository.find_all_active (cat : List Achievement) : List Achievement :=
  ord_sort (fun a b => decide (a.id ≤ b.id)) (cat.filter (fun a => a.active))

def BadgeRepository.find_by_id (badges : List Badge) (i : Nat) : Option Badge :=
  badges.find? (fun b => b.id == i)

def badge_info (b : Badge) : BadgeInfo :=
  { badge_id := b.id, title := b.title, description := b.description, icon_url := b.icon_url }

/-! ## services/gamification_service.py -/

/-- `_rule_satisfied`: threshold comparison keyed by `rule_type`; any other
rule type returns `False`. -/
def GamificationService.rule_satisfied (a : Achievement) (stats : UserStats) : Bool :=
  if a.rule_type == "stories_created_total" then decide (stats.stories_created_total ≥ a.rule_value)
  else if a.rule_type == "comments_written_total" then decide (stats.comments_written_total ≥ a.rule_value)
  else if a.rule_type == "likes_received_total" then decide (stats.likes_received_total ≥ a.rule_value)
  else if a.rule_type == "shares_received_total" then decide (stats.shares_received_total ≥ a.rule_value)
  else if a.rule_type == "days_active_streak" then decide (stats.days_active_streak ≥ a.rule_value)
  else false

/-- The inner `for badge_id in ach.badge_ids` loop of `evaluate_and_award`:
award each linked badge duplicate-safely, reporting a badge only when its row
was inserted and its record is found in the badges table. -/
def GamificationService.award_badges_loop (badges : List Badge) (u : Nat) :
    List Nat → Ledger → Ledger × List BadgeInfo
  | [], led => (led, [])
  | bid :: rest, led =>
      let r1 := UserProgressRepository.award_badge led u bid
      let acc :=
        if r1.2 then
          match BadgeRepository.find_by_id badges bid with
          | some b => [badge_info b]
          | none => []
        else []
      let r2 := GamificationService.award_badges_loop badges u rest r1.1
      (r2.1, acc ++ r2.2)

/-- The outer `for ach in active_achievements` loop of `evaluate_and_award`. -/
def GamificationService.eval_loop (stats : UserStats) (badges : List Badge) (u : Nat) :
    List Achievement → Ledger → Ledger × List BadgeInfo
  | [], led => (led, [])
  | a :: rest, led =>
      if UserProgressRepository.has_achievement led u a.id then
        GamificationService.eval_loop stats badges u rest led
      else if !GamificationService.rule_satisfied a stats then
        GamificationService.eval_loop stats badges u rest led
      else
        let r1 := UserProgressRepository.award_achievement led u a.id
        if !r1.2 then GamificationService.eval_loop stats badges u rest r1.1
        else
          let r2 := GamificationService.award_badges_loop badges u a.badge_ids r1.1
          let r3 := GamificationService.eval_loop stats badges u rest r2.1
          (r3.1, r2.2 ++ r3.2)

/-- `evaluate_and_award(user_id)`: `stats` is the value read from
`get_user_stats`, `cat` the achievements table, `badges` the badges table,
`led` the award ledger.  Returns the updated ledger and the newly earned
badge list. -/
def GamificationService.evaluate_and_award (stats : UserStats) (cat : List Achievement)
    (badges : List Badge) (user_id : Option Nat) (led : Ledger) : Ledger × List BadgeInfo :=
  match user_id with
  | none => (led, [])
  | some u => GamificationService.eval_loop stats badges u
      (AchievementRepository.find_all_active cat) led

/-! ## services/story_service.py -/

/-- `create_story`'s tag cleaning: drop blank tags, strip leading hashes
(`[tag.lstrip('#') for tag in tags if tag.strip()]`). -/
def StoryService.clean_input_tags (ts : List String) : List String :=
  (ts.filter (fun t => !(py_strip t == ""))).map lstrip_hash

/-- The field-update block of `update_story`: caption/description are applied
only when the 24h edit lock is open; category, privacy, tags and
allowed_groups are applied unconditionally. -/
def StoryService.apply_updates (story : StoryPost) (editable : Bool)
    (caption description category privacy : Option String)
    (tags allowed_groups : Option (List String)) : StoryPost :=
  let s1 :=
    if editable then
      let sa := match caption with
        | some c => { story with caption := py_strip c }
        | none => story
      match description with
      | some d => { sa with description := py_strip d }
      | none => sa
    else story
  let s2 := match category with
    | some c => { s1 with category := c }
    | none => s1
  let s3 := match privacy with
    | some p => { s2 with privacy := p }
    | none => s2
  let s4 := match tags with
    | some ts => { s3 with tags := StoryService.clean_input_tags ts }
    | none => s3
  match allowed_groups with
  | some g => { s4 with allowed_groups := g }
  | none => s4

/-- `update_story` (media files omitted: not supplied in the claims under
study).  Returns (stories table, updated story or none, error mapping). -/
def StoryService.update_story (st : List StoryPost) (now : Nat) (story_id : Nat)
    (caption description category privacy : Option String)
    (tags allowed_groups : Option (List String)) :
    List StoryPost × Option StoryPost × List (String × String) :=
  match find_by_id st story_id with
  | none => (st, none, [("general", "Story not found")])
  | some story =>
      if story.is_deleted then (st, none, [("general", "Cannot edit a deleted story")])
      else
        let s := StoryService.apply_updates story (story.is_editable now)
          caption description category privacy tags allowed_groups
        let errs := s.validate
        if errs.isEmpty then
          let r := StoryRepository.update st s now
          if r.2 then (r.1, some { s with updated_at := now }, [])
          else (st, none, [("general", "Failed to update story")])
        else (st, none, errs)

/-- `restore_story`: requires the record to exist, to be deleted, and to be
inside the 7-day recovery window, then delegates to the repository. -/
def StoryService.restore_story (st : List StoryPost) (now : Nat) (story_id : Nat) :
    List StoryPost × Bool × String :=
  match find_by_id st story_id with
  | none => (st, false, "Story not found")
  | some story =>
      if !story.is_deleted then (st, false, "Story is not deleted")
      else if !(story.can_be_restored now) then
        (st, false, "Story cannot be restored (expired after 7 days)")
      else
        let r := StoryRepository.restore st story_id
        (r.1, r.2, if r.2 then "Story restored successfully" else "Failed to restore story")

/-- `like_story`: increment, then evaluate gamification for the story's
author when the story exists and has a non-null author id. -/
def StoryService.like_story (db : DB) (cat : List Achievement) (badges : List Badge)
    (led : Ledger) (i : Nat) : (Int × List BadgeInfo) × DB × Ledger :=
  let story := find_by_id db.stories i
  let r := StoryRepository.increment_likes db.stories i
  let db' := { db with stories := r.1 }
  match story with
  | some s =>
      match s.author_id with
      | some a =>
          let g := GamificationService.evaluate_and_award
            (UserProgressRepository.get_user_stats db' (some a)) cat badges (some a) led
          ((r.2, g.2), db', g.1)
      | none => ((r.2, []), db', led)
  | none => ((r.2, []), db', led)

/-- `unlike_story`: decrement (floored at 0), then evaluate gamification. -/
def StoryService.unlike_story (db : DB) (cat : List Achievement) (badges : List Badge)
    (led : Ledger) (i : Nat) : (Int × List BadgeInfo) × DB × Ledger :=
  let story := find_by_id db.stories i
  let r := StoryRepository.decrement_likes db.stories i
  let db' := { db with stories := r.1 }
  match story with
  | some s =>
      match s.author_id with
      | some a =>
          let g := GamificationService.evaluate_and_award
            (UserProgressRepository.get_user_stats db' (some a)) cat badges (some a) led
          ((r.2, g.2), db', g.1)
      | none => ((r.2, []), db', led)
  | none => ((r.2, []), db', led)

/-- `share_story`: increment shares, then evaluate gamification. -/
def StoryService.share_story (db : DB) (cat : List Achievement) (badges : List Badge)
    (led : Ledger) (i : Nat) : (Int × List BadgeInfo) × DB × Ledger :=
  let story := find_by_id db.stories i
  let r := StoryRepository.increment_shares db.stories i
  let db' := { db with stories := r.1 }
  match story with
  | some s =>
      match s.author_id with
      | some a =>
          let g := GamificationService.evaluate_and_award
            (UserProgressRepository.get_user_stats db' (some a)) cat badges (some a) led
          ((r.2, g.2), db', g.1)
      | none => ((r.2, []), db', led)
  | none => ((r.2, []), db', led)

/-! ## Engagement-operation alphabet (for the counter invariant) -/

/-- One counter-mutating engagement operation of the core. -/
inductive EngOp where
  | like_inc (i : Nat)
  | like_dec (i : Nat)
  | share_inc (i : Nat)
  | comment_add (c : Comment)
  | comment_del (cid : Nat)
deriving DecidableEq

/-- Effect of one engagement operation on the store. -/
def apply_eng_op (db : DB) : EngOp → DB
  | .like_inc i => { db with stories := (StoryRepository.increment_likes db.stories i).1 }
  | .like_dec i => { db with stories := (StoryRepository.decrement_likes db.stories i).1 }
  | .share_inc i => { db with stories := (StoryRepository.increment_shares db.stories i).1 }
  | .comment_add c => (CommentRepository.create db c).1
  | .comment_del cid => (CommentRepository.delete db cid).1

/-- All engagement counters of every stored story are non-negative. -/
def counters_nonneg (db : DB) : Prop :=
  ∀ s ∈ db.stories, 0 ≤ s.likes_count ∧ 0 ≤ s.comments_count ∧ 0 ≤ s.shares_count

/-! ## Concrete states used by witnesses and counterexamples -/

def empty_ledger : Ledger := { user_achievements := [], user_badges := [] }

def zero_stats : UserStats :=
  { stories_created_total := 0, comments_written_total := 0,
    likes_received_total := 0, shares_received_total := 0, days_active_streak := 0 }

/-- A string of `n` leading hashes followed by `t`. -/
def hash_run (n : Nat) (t : String) : String :=
  ⟨List.replicate n '#' ++ t.data⟩

def c2_cat : List Achievement :=
  [{ id := 1, rule_type := "stories_created_total", rule_value := 0,
     active := true, badge_ids := [5] }]

def c3_story : StoryPost :=
  { id := some 1, author_id := some 4, caption := "Old caption",
    description := "A sufficiently long description.",
    category := "Life Lessons", privacy := "Public", created_at := 0 }

def c3_store : List StoryPost := [c3_story]

def c4_story : StoryPost :=
  { id := some 1, caption := "Hello", description := "A long enough description.",
    category := "Life Lessons", privacy := "Public", is_deleted := false }

def c4_store : List StoryPost := [c4_story]

def c5_post : StoryPost :=
  { caption := "x", description := "whatever", category := "Life Lessons",
    privacy := "Public", tags := ["##name"] }

def c6_db : DB :=
  { stories := [{ id := some 1, caption := "Hi", description := "A long enough description.",
                  category := "Life Lessons", privacy := "Public" }],
    comments := [] }

def c7_story : StoryPost :=
  { id := some 1, caption := "Hello World", description := "This is a long description.",
    category := "Life Lessons", privacy := "Public", created_at := 10 }

def c7b_story : StoryPost :=
  { id := some 2, caption := "abc", description := "hello world",
    category := "Life Lessons", privacy := "Public", created_at := 5 }

def c10_story : StoryPost :=
  { id := some 1, author_id := none, caption := "Hi",
    description := "A long enough description.",
    category := "Life Lessons", privacy := "Public" }

def c10_db : DB := { stories := [c10_story], comments := [] }

def c8_post : StoryPost :=
  { caption := ⟨List.replicate 121 'a'⟩, description := "short",
    category := "Life Lessons", privacy := "Public" }

def c9_ach : Achievement :=
  { id := 3, rule_type := "bogus_rule", rule_value := 1, active := true, badge_ids := [] }

/-! ## Helper lemmas -/

theorem mem_ord_insert {α} (le : α → α → Bool) (a x : α) (l : List α) :
    x ∈ ord_insert le a l ↔ x = a ∨ x ∈ l := by
  induction l with
  | nil => simp [ord_insert]
  | cons b bs ih =>
      simp only [ord_insert]
      by_cases h : le a b
      · simp [h]
      · simp [h, ih]; tauto

theorem mem_ord_sort {α} (le : α → α → Bool) (x : α) (l : List α) :
    x ∈ ord_sort le l ↔ x ∈ l := by
  induction l with
  | nil => simp [ord_sort]
  | cons b bs ih => simp [ord_sort, mem_ord_insert, ih]

theorem find_by_id_some_id {st : List StoryPost} {i : Nat} {story : StoryPost}
    (h : find_by_id st i = some story) : story.id = some i := by
  have := List.find?_some h
  simpa using this

theorem row_matched_of_find {st : List StoryPost} {i : Nat} {story : StoryPost}
    (h : find_by_id st i = some story) : row_matched st i = true := by
  have hmem := List.mem_of_find?_eq_some h
  have hp := List.find?_some h
  simp only [row_matched, List.any_eq_true]
  exact ⟨story, hmem, hp⟩

theorem find_by_id_update_matching {st : List StoryPost} {i : Nat} {f : StoryPost → StoryPost}
    (hf : ∀ r : StoryPost, r.id = some i → (f r).id = some i) :
    find_by_id (update_matching st i f) i = (find_by_id st i).map f := by
  induction st with
  | nil => rfl
  | cons r rs ih =>
      by_cases h : r.id = some i
      · have hb : (r.id == some i) = true := by simpa using h
        have hb2 : ((f r).id == some i) = true := by simpa using hf r h
        have h1 : update_matching (r :: rs) i f = f r :: update_matching rs i f := by
          unfold update_matching
          rw [List.map_cons, if_pos hb]
        simp only [find_by_id] at ih ⊢
        rw [h1, List.find?_cons, List.find?_cons]
        simp [hb, hb2]
      · have hb : (r.id == some i) = false := by simpa using h
        have h1 : update_matching (r :: rs) i f = r :: update_matching rs i f := by
          unfold update_matching
          rw [List.map_cons, if_neg (by simp [hb])]
        simp only [find_by_id] at ih ⊢
        rw [h1, List.find?_cons, List.find?_cons]
        simp only [hb]
        exact ih

theorem update_matching_of_none {st : List StoryPost} {i : Nat} {f : StoryPost → StoryPost}
    (h : find_by_id st i = none) : update_matching st i f = st := by
  have hall : ∀ r ∈ st, (r.id == some i) = false := by
    intro r hr
    have := List.find?_eq_none.mp h r hr
    simpa using this
  clear h
  induction st with
  | nil => rfl
  | cons r rs ih =>
      have hb := hall r (List.mem_cons_self r rs)
      have hrest : ∀ x ∈ rs, (x.id == some i) = false :=
        fun x hx => hall x (List.mem_cons_of_mem r hx)
      have htail := ih hrest
      unfold update_matching at htail ⊢
      rw [List.map_cons, if_neg (by simp [hb]), htail]

theorem mem_update_matching {st : List StoryPost} {i : Nat} {f : StoryPost → StoryPost}
    {x : StoryPost} (h : x ∈ update_matching st i f) :
    (∃ r ∈ st, x = f r) ∨ x ∈ st := by
  simp only [update_matching, List.mem_map] at h
  obtain ⟨r, hr, hx⟩ := h
  by_cases hc : (r.id == some i) = true
  · left; exact ⟨r, hr, by rw [← hx, hc]; simp⟩
  · right
    have hb : (r.id == some i) = false := by simpa using hc
    rw [← hx, hb]; simpa using hr

/-! ## C4: restore requires the record to be deleted -/

/-- C4 counterexample: the claim speaks of the Story Store's `restore`; the
repository-level `restore` run on an existing record with `is_deleted = false`
DOES report success (SQLite counts every row matched by the UPDATE), so the
claim as stated is false at this input. -/
theorem c4_counterexample :
    (find_by_id c4_store 1).map (fun s => s.is_deleted) = some false ∧
    (StoryRepository.restore c4_store 1).2 = true := by
  constructor <;> rfl

/-- C4 (amended): the deleted-record requirement is enforced one layer up, in
`StoryService.restore_story`: for every story id whose stored record has
`is_deleted = false`, `restore_story` reports failure ("Story is not
deleted") and leaves the store unchanged; the repository `restore` alone
reports success for any existing id. -/
theorem c4_restore_requires_deleted (st : List StoryPost) (now i : Nat)
    (story : StoryPost) (hfind : find_by_id st i = some story)
    (hdel : story.is_deleted = false) :
    StoryService.restore_story st now i = (st, false, "Story is not deleted") := by
  simp [StoryService.restore_story, hfind, hdel]

/-- C4 witness: the amended theorem applied to a concrete non-deleted story. -/
theorem c4_restore_requires_deleted_witness :
    find_by_id c4_store 1 = some c4_story ∧ c4_story.is_deleted = false ∧
    StoryService.restore_story c4_store 0 1 = (c4_store, false, "Story is not deleted") :=
  ⟨rfl, rfl, c4_restore_requires_deleted c4_store 0 1 c4_story rfl rfl⟩

/-! ## C5: tag normalization -/

/-- C5 counterexample: the claim says normalization strips exactly one leading
hash, so that "##name" is validated as "#name" and fails the pattern; in the
code `lstrip('#')` strips every leading hash, "##name" becomes "name", and
tag validation reports no error. -/
theorem c5_counterexample :
    lstrip_hash "##name" = "name" ∧ StoryPost.validate_tags c5_post = none := by
  constructor <;> rfl

/-- C5 (amended): normalization before storage and before pattern validation
strips ALL leading '#' characters: a tag of `n` hashes followed by a
hash-free remainder `t` is treated as `t`, and when `t` matches the
alphanumeric/underscore pattern the tag passes validation (so "##name" is
treated as "name" and passes). -/
theorem c5_strip_all_hashes (n : Nat) (t : String) (h : t.data.head? ≠ some '#') :
    lstrip_hash (hash_run n t) = t ∧
    (tag_pattern_match t = true →
      ∀ p : StoryPost, p.tags = [hash_run n t] → p.validate_tags = none) := by
  have hdrop : (hash_run n t).data.dropWhile (fun c => c == '#') = t.data := by
    show (List.replicate n '#' ++ t.data).dropWhile (fun c => c == '#') = t.data
    induction n with
    | zero =>
        simp only [List.replicate, List.nil_append]
        cases ht : t.data with
        | nil => rfl
        | cons c cs =>
            have hcb : (c == '#') = false := by
              have hc : ¬c = '#' := by
                intro hc; apply h; simp [ht, hc]
              simpa using hc
            simp [List.dropWhile, hcb]
    | succ m ih => simpa [List.replicate_succ, List.dropWhile] using ih
  have hstrip : lstrip_hash (hash_run n t) = t := by
    show (⟨(hash_run n t).data.dropWhile (fun c => c == '#')⟩ : String) = t
    rw [hdrop]
  refine ⟨hstrip, fun hpat p hp => ?_⟩
  simp [StoryPost.validate_tags, hp, hstrip, hpat]

/-- C5 witness: the amended theorem at `n = 2`, `t = "name"`, instantiated on
the same post as the counterexample. -/
theorem c5_strip_all_hashes_witness :
    ("name" : String).data.head? ≠ some '#' ∧
    tag_pattern_match "name" = true ∧ c5_post.tags = [hash_run 2 "name"] ∧
    c5_post.validate_tags = none :=
  ⟨by decide, by decide, by decide,
   (c5_strip_all_hashes 2 "name" (by decide)).2 (by decide) c5_post (by decide)⟩

/-! ## C8: caption/description validation -/

/-- C8: for every post, a caption longer than 120 characters always yields a
caption error from `validate()`, and a description shorter than 20 characters
always yields a description error, independent of all other fields. -/
theorem c8_validate_caption_description (p : StoryPost) :
    (120 < p.caption.length → (p.validate.lookup "caption").isSome = true) ∧
    (p.description.length < 20 → (p.validate.lookup "description").isSome = true) := by
  constructor
  · intro hlen
    have hcap : ∃ e, p.validate_caption = some e := by
      by_cases ht : py_strip p.caption = ""
      · exact ⟨"Caption is required", by simp [StoryPost.validate_caption, ht]⟩
      · exact ⟨"Caption must be 120 characters or less",
          by simp [StoryPost.validate_caption, ht, hlen]⟩
    obtain ⟨e, he⟩ := hcap
    simp [StoryPost.validate, err_entry, he, List.lookup]
  · intro hlen
    have hdesc : ∃ e, p.validate_description = some e := by
      by_cases ht : py_strip p.description = ""
      · exact ⟨"Description is required", by simp [StoryPost.validate_description, ht]⟩
      · exact ⟨"Description must be at least 20 characters",
          by simp [StoryPost.validate_description, ht, hlen]⟩
    obtain ⟨e, he⟩ := hdesc
    have hne : (("description" : String) == "caption") = false := by decide
    rcases hc : p.validate_caption with _ | ec <;>
      simp [StoryPost.validate, err_entry, he, hc, List.lookup, hne]

/-- C8 witness: a concrete post with a 121-character caption and a 5-character
description exhibits both errors. -/
theorem c8_validate_caption_description_witness :
    120 < c8_post.caption.length ∧ c8_post.description.length < 20 ∧
    (c8_post.validate.lookup "caption").isSome = true ∧
    (c8_post.validate.lookup "description").isSome = true :=
  ⟨by decide, by decide,
   (c8_validate_caption_description c8_post).1 (by decide),
   (c8_validate_caption_description c8_post).2 (by decide)⟩

/-! ## C10: like/unlike/share on a missing story or anonymous author -/

/-- C10: for a story id with no stored record, `like_story`, `unlike_story`
and `share_story` each return count 0 and an empty newly-earned list, with
the store and the award ledger unchanged; and for a stored story whose
`author_id` is null, each operation returns an empty newly-earned list and
leaves the ledger unchanged — gamification is evaluated only when the story
exists and has a non-null author id. -/
theorem c10_missing_story_noop (db : DB) (cat : List Achievement) (badges : List Badge)
    (led : Ledger) (i : Nat) :
    (find_by_id db.stories i = none →
      StoryService.like_story db cat badges led i = ((0, []), db, led) ∧
      StoryService.unlike_story db cat badges led i = ((0, []), db, led) ∧
      StoryService.share_story db cat badges led i = ((0, []), db, led)) ∧
    (∀ s, find_by_id db.stories i = some s → s.author_id = none →
      ((StoryService.like_story db cat badges led i).1.2 = [] ∧
       (StoryService.like_story db cat badges led i).2.2 = led) ∧
      ((StoryService.unlike_story db cat badges led i).1.2 = [] ∧
       (StoryService.unlike_story db cat badges led i).2.2 = led) ∧
      ((StoryService.share_story db cat badges led i).1.2 = [] ∧
       (StoryService.share_story db cat badges led i).2.2 = led)) := by
  constructor
  · intro h
    have hupd : ∀ f, update_matching db.stories i f = db.stories :=
      fun f => update_matching_of_none h
    refine ⟨?_, ?_, ?_⟩ <;>
      simp [StoryService.like_story, StoryService.unlike_story, StoryService.share_story,
        StoryRepository.increment_likes, StoryRepository.decrement_likes,
        StoryRepository.increment_shares, h, hupd]
  · intro s hfind hauth
    refine ⟨⟨?_, ?_⟩, ⟨?_, ?_⟩, ⟨?_, ?_⟩⟩ <;>
      simp [StoryService.like_story, StoryService.unlike_story, StoryService.share_story,
        hfind, hauth]

/-- C10 witness: the three operations on an empty store at id 5, and
`like_story` on a stored story with a null author id. -/
theorem c10_missing_story_noop_witness :
    (find_by_id ({ stories := [], comments := [] } : DB).stories 5 = none ∧
     StoryService.like_story { stories := [], comments := [] } [] [] empty_ledger 5 =
       ((0, []), { stories := [], comments := [] }, empty_ledger)) ∧
    (find_by_id c10_db.stories 1 = some c10_story ∧ c10_story.author_id = none ∧
     (StoryService.like_story c10_db [] [] empty_ledger 1).1.2 = [] ∧
     (StoryService.like_story c10_db [] [] empty_ledger 1).2.2 = empty_ledger) :=
  ⟨⟨rfl,
    ((c10_missing_story_noop { stories := [], comments := [] } [] [] empty_ledger 5).1 rfl).1⟩,
   ⟨rfl, rfl,
    ((c10_missing_story_noop c10_db [] [] empty_ledger 1).2 c10_story rfl rfl).1.1,
    ((c10_missing_story_noop c10_db [] [] empty_ledger 1).2 c10_story rfl rfl).1.2⟩⟩

/-! ## C6: engagement counters never go negative -/

theorem counters_nonneg_apply_eng_op (db : DB) (op : EngOp) (h : counters_nonneg db) :
    counters_nonneg (apply_eng_op db op) := by
  cases op with
  | like_inc i =>
      intro s hs
      simp only [apply_eng_op, StoryRepository.increment_likes] at hs
      rcases mem_update_matching hs with ⟨r, hr, rfl⟩ | hmem
      · obtain ⟨h1, h2, h3⟩ := h r hr
        refine ⟨?_, h2, h3⟩
        show (0 : Int) ≤ r.likes_count + 1
        omega
      · exact h s hmem
  | like_dec i =>
      intro s hs
      simp only [apply_eng_op, StoryRepository.decrement_likes] at hs
      rcases mem_update_matching hs with ⟨r, hr, rfl⟩ | hmem
      · obtain ⟨h1, h2, h3⟩ := h r hr
        refine ⟨?_, h2, h3⟩
        show (0 : Int) ≤ max 0 (r.likes_count - 1)
        exact le_max_left _ _
      · exact h s hmem
  | share_inc i =>
      intro s hs
      simp only [apply_eng_op, StoryRepository.increment_shares] at hs
      rcases mem_update_matching hs with ⟨r, hr, rfl⟩ | hmem
      · obtain ⟨h1, h2, h3⟩ := h r hr
        refine ⟨h1, h2, ?_⟩
        show (0 : Int) ≤ r.shares_count + 1
        omega
      · exact h s hmem
  | comment_add c =>
      intro s hs
      simp only [apply_eng_op, CommentRepository.create] at hs
      rcases mem_update_matching hs with ⟨r, hr, rfl⟩ | hmem
      · obtain ⟨h1, h2, h3⟩ := h r hr
        refine ⟨h1, ?_, h3⟩
        show (0 : Int) ≤ r.comments_count + 1
        omega
      · exact h s hmem
  | comment_del cid =>
      intro s hs
      simp only [apply_eng_op, CommentRepository.delete] at hs
      cases hfind : db.comments.find? (fun x => x.id == some cid) with
      | none => rw [hfind] at hs; exact h s hs
      | some c =>
          rw [hfind] at hs
          rcases mem_update_matching hs with ⟨r, hr, rfl⟩ | hmem
          · obtain ⟨h1, h2, h3⟩ := h r hr
            refine ⟨h1, ?_, h3⟩
            show (0 : Int) ≤ max 0 (r.comments_count - 1)
            exact le_max_left _ _
          · exact h s hmem

theorem counters_nonneg_foldl (ops : List EngOp) :
    ∀ db, counters_nonneg db → counters_nonneg (List.foldl apply_eng_op db ops) := by
  induction ops with
  | nil => intro db h; simpa using h
  | cons op rest ih =>
      intro db h
      simpa [List.foldl] using ih _ (counters_nonneg_apply_eng_op db op h)

/-- C6: `decrement_likes` stores `max 0 (n - 1)`, the comment-delete
adjustment stores `max 0 (n - 1)` on the owning story, and starting from any
store with non-negative counters, no sequence of engagement operations
(like increment/decrement, share increment, comment create/delete) ever
produces a negative stored counter. -/
theorem c6_counters_never_negative (db : DB) (h : counters_nonneg db) :
    (∀ i s, find_by_id db.stories i = some s →
       find_by_id (StoryRepository.decrement_likes db.stories i).1 i =
         some { s with likes_count := max 0 (s.likes_count - 1) }) ∧
    (∀ cid c s, db.comments.find? (fun x => x.id == some cid) = some c →
       find_by_id db.stories c.story_id = some s →
       find_by_id (CommentRepository.delete db cid).1.stories c.story_id =
         some { s with comments_count := max 0 (s.comments_count - 1) }) ∧
    (∀ ops : List EngOp, counters_nonneg (List.foldl apply_eng_op db ops)) := by
  refine ⟨?_, ?_, fun ops => counters_nonneg_foldl ops db h⟩
  · intro i s hfound
    have key : find_by_id (update_matching db.stories i
        (fun r => { r with likes_count := max 0 (r.likes_count - 1) })) i =
        (find_by_id db.stories i).map
          (fun r => { r with likes_count := max 0 (r.likes_count - 1) }) :=
      find_by_id_update_matching (fun r hr => hr)
    have hred : (StoryRepository.decrement_likes db.stories i).1 =
        update_matching db.stories i
          (fun r => { r with likes_count := max 0 (r.likes_count - 1) }) := rfl
    rw [hred, key, hfound]
    rfl
  · intro cid c s hc hfound
    have key : find_by_id (update_matching db.stories c.story_id
        (fun r => { r with comments_count := max 0 (r.comments_count - 1) })) c.story_id =
        (find_by_id db.stories c.story_id).map
          (fun r => { r with comments_count := max 0 (r.comments_count - 1) }) :=
      find_by_id_update_matching (fun r hr => hr)
    have hred : (CommentRepository.delete db cid).1.stories =
        update_matching db.stories c.story_id
          (fun r => { r with comments_count := max 0 (r.comments_count - 1) }) := by
      simp only [CommentRepository.delete, hc]
    rw [hred, key, hfound]
    rfl

/-- C6 witness: a concrete store with zero counters stays non-negative under
a decrement-then-increment sequence, and decrement floors at 0. -/
theorem c6_counters_never_negative_witness :
    counters_nonneg c6_db ∧
    counters_nonneg (List.foldl apply_eng_op c6_db [EngOp.like_dec 1, EngOp.like_inc 1]) :=
  ⟨by unfold counters_nonneg; decide,
   (c6_counters_never_negative c6_db (by unfold counters_nonneg; decide)).2.2
     [EngOp.like_dec 1, EngOp.like_inc 1]⟩

/-! ## C7: find_all filtering -/

theorem nil_mem_str_tails (l : List Char) : [] ∈ str_tails l := by
  induction l with
  | nil => simp [str_tails]
  | cons c cs ih => simp [str_tails, ih]

theorem any_congr {α} (f g : α → Bool) (l : List α) (h : ∀ a ∈ l, f a = g a) :
    l.any f = l.any g := by
  induction l with
  | nil => rfl
  | cons a as ih =>
      simp only [List.any_cons]
      rw [h a (List.mem_cons_self a as), ih (fun x hx => h x (List.mem_cons_of_mem a hx))]

theorem like_match_lit_append (p : List Char) (hp : ∀ c ∈ p, ¬c = '%' ∧ ¬c = '_') :
    ∀ t : List Char, like_match (p ++ ['%']) t = p.isPrefixOf t := by
  induction p with
  | nil =>
      intro t
      have hstep : like_match ([] ++ ['%']) t =
          (str_tails t).any (fun t' => like_match [] t') := by
        simp [like_match]
      rw [hstep]
      have htrue : (str_tails t).any (fun t' => like_match [] t') = true :=
        List.any_eq_true.mpr ⟨[], nil_mem_str_tails t, by simp [like_match]⟩
      rw [htrue]
      simp [List.isPrefixOf]
  | cons c p' ih =>
      intro t
      have hc := hp c (List.mem_cons_self c p')
      have hp' : ∀ d ∈ p', ¬d = '%' ∧ ¬d = '_' :=
        fun d hd => hp d (List.mem_cons_of_mem c hd)
      cases t with
      | nil => simp [like_match, hc.1, hc.2, List.isPrefixOf]
      | cons d ds => simp [like_match, hc.1, hc.2, List.isPrefixOf, ih hp' ds]

theorem any_prefix_eq_has_substr (p : List Char) (l : List Char) :
    (str_tails l).any (fun t => p.isPrefixOf t) = has_substr p l := by
  induction l with
  | nil =>
      cases p <;> simp [str_tails, has_substr, List.isPrefixOf]
  | cons c cs ih => simp [str_tails, has_substr, ih]

theorem like_ci_eq_substr_ci (q x : String) (h : no_wildcards q = true) :
    like_ci q x = substr_ci q x := by
  have hp : ∀ c ∈ q.data.map Char.toLower, ¬c = '%' ∧ ¬c = '_' := by
    intro c hc
    have h1 := List.all_eq_true.mp h c hc
    simp only [Bool.and_eq_true, Bool.not_eq_true', beq_eq_false_iff_ne, ne_eq] at h1
    exact h1
  have hstep : like_ci q x = (str_tails (x.data.map Char.toLower)).any
      (fun t => like_match (q.data.map Char.toLower ++ ['%']) t) := by
    simp [like_ci, like_match]
  rw [hstep,
    any_congr _ _ _ (fun t _ => like_match_lit_append (q.data.map Char.toLower) hp t),
    any_prefix_eq_has_substr]
  rfl

/-- C7 counterexample: the search term is interpolated unescaped into the
LIKE pattern, so `'_'` in it is an active single-character wildcard: the
search "a_c" returns a story captioned "abc" even though neither its caption
nor its description contains "a_c" as a (case-insensitive) substring,
refuting the claim's substring conjunct. -/
theorem c7_counterexample :
    (c7b_story ∈ StoryRepository.find_all [c7b_story] (some "a_c") none "recent" false 100) ∧
    substr_ci "a_c" c7b_story.caption = false ∧
    substr_ci "a_c" c7b_story.description = false := by
  refine ⟨?_, ?_, ?_⟩ <;> decide

/-- C7 (amended): with `include_deleted = false`, every story returned by
`find_all` is not soft-deleted and has no future `scheduled_at`; when a
search term is given, every returned story's caption or description matches
the SQLite LIKE pattern `%term%`, in which `'%'` and `'_'` inside the
unescaped term act as wildcards — and for a term containing no wildcard
character this is exactly case-insensitive substring containment. -/
theorem c7_find_all_filters (st : List StoryPost) (search category : Option String)
    (sb : String) (now : Nat) (s : StoryPost)
    (hs : s ∈ StoryRepository.find_all st search category sb false now) :
    s.is_deleted = false ∧
    (∀ t, s.scheduled_at = some t → t ≤ now) ∧
    (∀ q, search = some q → (like_ci q s.caption = true ∨ like_ci q s.description = true)) ∧
    (∀ q, search = some q → no_wildcards q = true →
      (substr_ci q s.caption = true ∨ substr_ci q s.description = true)) := by
  simp only [StoryRepository.find_all] at hs
  rw [mem_ord_sort] at hs
  rw [List.mem_filter] at hs
  obtain ⟨-, hm⟩ := hs
  simp only [matches_filters, Bool.and_eq_true] at hm
  obtain ⟨⟨⟨hdel, hsched⟩, hsearch⟩, -⟩ := hm
  have hlike : ∀ q, search = some q →
      (like_ci q s.caption = true ∨ like_ci q s.description = true) := by
    intro q hq
    rw [hq] at hsearch
    simpa [Bool.or_eq_true] using hsearch
  refine ⟨?_, ?_, hlike, ?_⟩
  · simpa using hdel
  · intro t ht
    rw [ht] at hsched
    simpa using hsched
  · intro q hq hnw
    rcases hlike q hq with h | h
    · exact Or.inl (by rw [← like_ci_eq_substr_ci q s.caption hnw]; exact h)
    · exact Or.inr (by rw [← like_ci_eq_substr_ci q s.description hnw]; exact h)

/-- C7 witness: a concrete live story matching the wildcard-free search term
"world" is returned, is not deleted, and contains the term as a
case-insensitive substring. -/
theorem c7_find_all_filters_witness :
    (c7_story ∈ StoryRepository.find_all [c7_story] (some "world") none "recent" false 100) ∧
    no_wildcards "world" = true ∧
    c7_story.is_deleted = false ∧
    (substr_ci "world" c7_story.caption = true ∨
      substr_ci "world" c7_story.description = true) :=
  ⟨by decide, by decide,
   (c7_find_all_filters [c7_story] (some "world") none "recent" 100 c7_story (by decide)).1,
   (c7_find_all_filters [c7_story] (some "world") none "recent" 100 c7_story
     (by decide)).2.2.2 "world" rfl (by decide)⟩

/-! ## Gamification lemmas -/

theorem award_achievement_ub (led : Ledger) (u a : Nat) :
    (UserProgressRepository.award_achievement led u a).1.user_badges = led.user_badges := by
  unfold UserProgressRepository.award_achievement
  split <;> rfl

theorem award_badge_ua (led : Ledger) (u b : Nat) :
    (UserProgressRepository.award_badge led u b).1.user_achievements =
      led.user_achievements := by
  unfold UserProgressRepository.award_badge
  split <;> rfl

theorem mem_ua_award_achievement {led : Ledger} {x : Nat × Nat} (u a : Nat)
    (h : x ∈ led.user_achievements) :
    x ∈ (UserProgressRepository.award_achievement led u a).1.user_achievements := by
  unfold UserProgressRepository.award_achievement
  split
  · exact h
  · simp only [List.mem_append]
    exact Or.inl h

theorem mem_ub_award_badge {led : Ledger} {x : Nat × Nat} (u b : Nat)
    (h : x ∈ led.user_badges) :
    x ∈ (UserProgressRepository.award_badge led u b).1.user_badges := by
  unfold UserProgressRepository.award_badge
  split
  · exact h
  · simp only [List.mem_append]
    exact Or.inl h

theorem award_badges_loop_ua (badges : List Badge) (u : Nat) (bids : List Nat) :
    ∀ led : Ledger,
      (GamificationService.award_badges_loop badges u bids led).1.user_achievements =
        led.user_achievements := by
  induction bids with
  | nil => intro led; rfl
  | cons bid rest ih =>
      intro led
      simp only [GamificationService.award_badges_loop]
      rw [ih, award_badge_ua]

theorem mem_ub_award_badges_loop (badges : List Badge) (u : Nat) (bids : List Nat) :
    ∀ (led : Ledger) (x : Nat × Nat), x ∈ led.user_badges →
      x ∈ (GamificationService.award_badges_loop badges u bids led).1.user_badges := by
  induction bids with
  | nil => intro led x h; exact h
  | cons bid rest ih =>
      intro led x h
      simp only [GamificationService.award_badges_loop]
      exact ih _ x (mem_ub_award_badge u bid h)

theorem mem_ua_eval_loop (stats : UserStats) (badges : List Badge) (u : Nat)
    (L : List Achievement) :
    ∀ (led : Ledger) (x : Nat × Nat), x ∈ led.user_achievements →
      x ∈ (GamificationService.eval_loop stats badges u L led).1.user_achievements := by
  induction L with
  | nil => intro led x h; exact h
  | cons a rest ih =>
      intro led x h
      simp only [GamificationService.eval_loop]
      split
      · exact ih led x h
      · split
        · exact ih led x h
        · split
          · exact ih _ x (mem_ua_award_achievement u a.id h)
          · have h1 : x ∈ (UserProgressRepository.award_achievement led u a.id).1.user_achievements :=
              mem_ua_award_achievement u a.id h
            have h2 : x ∈ (GamificationService.award_badges_loop badges u a.badge_ids
                (UserProgressRepository.award_achievement led u a.id).1).1.user_achievements := by
              rw [award_badges_loop_ua]
              exact h1
            exact ih _ x h2

theorem mem_ub_eval_loop (stats : UserStats) (badges : List Badge) (u : Nat)
    (L : List Achievement) :
    ∀ (led : Ledger) (x : Nat × Nat), x ∈ led.user_badges →
      x ∈ (GamificationService.eval_loop stats badges u L led).1.user_badges := by
  induction L with
  | nil => intro led x h; exact h
  | cons a rest ih =>
      intro led x h
      simp only [GamificationService.eval_loop]
      split
      · exact ih led x h
      · split
        · exact ih led x h
        · split
          · have h1 : x ∈ (UserProgressRepository.award_achievement led u a.id).1.user_badges := by
              rw [award_achievement_ub]
              exact h
            exact ih _ x h1
          · have h1 : x ∈ (UserProgressRepository.award_achievement led u a.id).1.user_badges := by
              rw [award_achievement_ub]
              exact h
            have h2 := mem_ub_award_badges_loop badges u a.badge_ids _ x h1
            exact ih _ x h2

theorem eval_loop_awards (stats : UserStats) (badges : List Badge) (u : Nat)
    (L : List Achievement) :
    ∀ (led : Ledger) (a : Achievement), a ∈ L →
      GamificationService.rule_satisfied a stats = true →
      (u, a.id) ∈ (GamificationService.eval_loop stats badges u L led).1.user_achievements := by
  induction L with
  | nil => intro led a ha; exact absurd ha (List.not_mem_nil a)
  | cons b rest ih =>
      intro led a ha hsat
      rcases List.mem_cons.mp ha with rfl | hmem
      · simp only [GamificationService.eval_loop]
        by_cases hhas : UserProgressRepository.has_achievement led u a.id = true
        · rw [if_pos hhas]
          have hm : (u, a.id) ∈ led.user_achievements := by
            simpa [UserProgressRepository.has_achievement] using hhas
          exact mem_ua_eval_loop stats badges u rest led _ hm
        · rw [if_neg hhas, if_neg (by simp [hsat])]
          have hc : led.user_achievements.contains (u, a.id) = false := by
            simpa [UserProgressRepository.has_achievement] using hhas
          have hnm : (u, a.id) ∉ led.user_achievements := by simpa using hc
          have h2 : (UserProgressRepository.award_achievement led u a.id).2 = true := by
            simp [UserProgressRepository.award_achievement, hnm]
          rw [if_neg (by simp [h2])]
          have hmem1 : (u, a.id) ∈
              (UserProgressRepository.award_achievement led u a.id).1.user_achievements := by
            simp [UserProgressRepository.award_achievement, hnm]
          have hmem2 : (u, a.id) ∈ (GamificationService.award_badges_loop badges u a.badge_ids
              (UserProgressRepository.award_achievement led u a.id).1).1.user_achievements := by
            rw [award_badges_loop_ua]
            exact hmem1
          exact mem_ua_eval_loop stats badges u rest _ _ hmem2
      · simp only [GamificationService.eval_loop]
        split
        · exact ih led a hmem hsat
        · split
          · exact ih led a hmem hsat
          · split
            · exact ih _ a hmem hsat
            · exact ih _ a hmem hsat

theorem eval_loop_no_new (stats : UserStats) (badges : List Badge) (u : Nat)
    (L : List Achievement) :
    ∀ led : Ledger,
      (∀ a ∈ L, GamificationService.rule_satisfied a stats = true →
        (u, a.id) ∈ led.user_achievements) →
      GamificationService.eval_loop stats badges u L led = (led, []) := by
  induction L with
  | nil => intro led _; rfl
  | cons b rest ih =>
      intro led h
      have hrest : ∀ a ∈ rest, GamificationService.rule_satisfied a stats = true →
          (u, a.id) ∈ led.user_achievements :=
        fun a ha hs => h a (List.mem_cons_of_mem b ha) hs
      simp only [GamificationService.eval_loop]
      by_cases hhas : UserProgressRepository.has_achievement led u b.id = true
      · rw [if_pos hhas]
        exact ih led hrest
      · rw [if_neg hhas]
        have hsat : GamificationService.rule_satisfied b stats = false := by
          cases hx : GamificationService.rule_satisfied b stats
          · rfl
          · exfalso
            have hm := h b (List.mem_cons_self b rest) hx
            have : UserProgressRepository.has_achievement led u b.id = true := by
              simpa [UserProgressRepository.has_achievement] using hm
            exact hhas this
        rw [if_pos (by simp [hsat])]
        exact ih led hrest

/-! ## C1: awarding is idempotent -/

/-- C1: running `evaluate_and_award` a second time, with the same stats,
catalog and badge table and starting from the ledger produced by the first
call, changes nothing and returns an empty newly-earned list. -/
theorem c1_evaluate_and_award_idempotent (stats : UserStats) (cat : List Achievement)
    (badges : List Badge) (u : Nat) (led : Ledger) :
    GamificationService.evaluate_and_award stats cat badges (some u)
      (GamificationService.evaluate_and_award stats cat badges (some u) led).1 =
    ((GamificationService.evaluate_and_award stats cat badges (some u) led).1, []) := by
  simp only [GamificationService.evaluate_and_award]
  exact eval_loop_no_new stats badges u _ _
    (fun a ha hs => eval_loop_awards stats badges u _ led a ha hs)

/-! ## C9: unknown rule types fail closed -/

theorem rule_satisfied_false_of_unknown (a : Achievement) (stats : UserStats)
    (h : a.rule_type ∉ ACHIEVEMENT_RULE_TYPES) :
    GamificationService.rule_satisfied a stats = false := by
  simp only [ACHIEVEMENT_RULE_TYPES, List.mem_cons, List.not_mem_nil, or_false, not_or] at h
  obtain ⟨h1, h2, h3, h4, h5⟩ := h
  have b1 : (a.rule_type == "stories_created_total") = false := by simpa using h1
  have b2 : (a.rule_type == "comments_written_total") = false := by simpa using h2
  have b3 : (a.rule_type == "likes_received_total") = false := by simpa using h3
  have b4 : (a.rule_type == "shares_received_total") = false := by simpa using h4
  have b5 : (a.rule_type == "days_active_streak") = false := by simpa using h5
  simp [GamificationService.rule_satisfied, b1, b2, b3, b4, b5]

theorem mem_find_all_active {cat : List Achievement} {a : Achievement}
    (h : a ∈ AchievementRepository.find_all_active cat) : a ∈ cat := by
  simp only [AchievementRepository.find_all_active] at h
  rw [mem_ord_sort] at h
  exact (List.mem_filter.mp h).1

theorem eval_loop_new_ua (stats : UserStats) (badges : List Badge) (u : Nat)
    (L : List Achievement) :
    ∀ (led : Ledger) (x : Nat × Nat),
      x ∈ (GamificationService.eval_loop stats badges u L led).1.user_achievements →
      x ∈ led.user_achievements ∨
        ∃ a ∈ L, x = (u, a.id) ∧ GamificationService.rule_satisfied a stats = true := by
  induction L with
  | nil => intro led x h; exact Or.inl h
  | cons b rest ih =>
      intro led x h
      simp only [GamificationService.eval_loop] at h
      by_cases hhas : UserProgressRepository.has_achievement led u b.id = true
      · rw [if_pos hhas] at h
        rcases ih led x h with hl | ⟨a, ha, hx, hs⟩
        · exact Or.inl hl
        · exact Or.inr ⟨a, List.mem_cons_of_mem b ha, hx, hs⟩
      · rw [if_neg hhas] at h
        by_cases hsat : GamificationService.rule_satisfied b stats = true
        · rw [if_neg (by simp [hsat])] at h
          have hc : led.user_achievements.contains (u, b.id) = false := by
            simpa [UserProgressRepository.has_achievement] using hhas
          have hnm : (u, b.id) ∉ led.user_achievements := by simpa using hc
          have h2 : (UserProgressRepository.award_achievement led u b.id).2 = true := by
            simp [UserProgressRepository.award_achievement, hnm]
          rw [if_neg (by simp [h2])] at h
          have h' : x ∈ (GamificationService.eval_loop stats badges u rest
              (GamificationService.award_badges_loop badges u b.badge_ids
                (UserProgressRepository.award_achievement led u b.id).1).1).1.user_achievements := h
          rcases ih _ x h' with hl | ⟨a, ha, hx, hs⟩
          · rw [award_badges_loop_ua] at hl
            have hl2 : x ∈ led.user_achievements ++ [(u, b.id)] := by
              have harr : (UserProgressRepository.award_achievement led u b.id).1.user_achievements
                  = led.user_achievements ++ [(u, b.id)] := by
                simp [UserProgressRepository.award_achievement, hnm]
              rwa [harr] at hl
            rcases List.mem_append.mp hl2 with hin | hone
            · exact Or.inl hin
            · refine Or.inr ⟨b, List.mem_cons_self b rest, ?_, hsat⟩
              simpa using hone
          · exact Or.inr ⟨a, List.mem_cons_of_mem b ha, hx, hs⟩
        · have hsf : GamificationService.rule_satisfied b stats = false := by
            cases hx : GamificationService.rule_satisfied b stats
            · rfl
            · exact absurd hx hsat
          rw [if_pos (by simp [hsf])] at h
          rcases ih led x h with hl | ⟨a, ha, hx, hs⟩
          · exact Or.inl hl
          · exact Or.inr ⟨a, List.mem_cons_of_mem b ha, hx, hs⟩

/-- C9: an achievement whose `rule_type` is outside the five enumerated rule
types is never satisfied by any stats, and (as long as no achievement sharing
its id — ids are the table's primary key — carries a known rule type)
`evaluate_and_award` never inserts its award row: the pair (user, id) is in
the resulting ledger only if it was there before. -/
theorem c9_unknown_rule_fails_closed (a : Achievement) (stats : UserStats)
    (cat : List Achievement) (badges : List Badge) (u : Nat) (led : Ledger)
    (h : a.rule_type ∉ ACHIEVEMENT_RULE_TYPES)
    (hcat : ∀ x ∈ cat, x.id = a.id → x.rule_type ∉ ACHIEVEMENT_RULE_TYPES) :
    GamificationService.rule_satisfied a stats = false ∧
    ((u, a.id) ∈ (GamificationService.evaluate_and_award stats cat badges
        (some u) led).1.user_achievements ↔ (u, a.id) ∈ led.user_achievements) := by
  refine ⟨rule_satisfied_false_of_unknown a stats h, ?_, ?_⟩
  · intro hm
    simp only [GamificationService.evaluate_and_award] at hm
    rcases eval_loop_new_ua stats badges u _ led (u, a.id) hm with hl | ⟨x, hx, hxe, hs⟩
    · exact hl
    · exfalso
      have hxcat : x ∈ cat := mem_find_all_active hx
      have hxid : x.id = a.id := by
        have := Prod.mk.injEq u a.id u x.id ▸ hxe
        simp only [Prod.mk.injEq] at hxe
        exact hxe.2.symm
      have hfs := rule_satisfied_false_of_unknown x stats (hcat x hxcat hxid)
      rw [hfs] at hs
      exact Bool.false_ne_true hs
  · intro hm
    simp only [GamificationService.evaluate_and_award]
    exact mem_ua_eval_loop stats badges u _ led (u, a.id) hm

/-- C9 witness: a concrete achievement with rule type "bogus_rule" is never
satisfied and never awarded. -/
theorem c9_unknown_rule_fails_closed_witness :
    c9_ach.rule_type ∉ ACHIEVEMENT_RULE_TYPES ∧
    GamificationService.rule_satisfied c9_ach zero_stats = false ∧
    ((7, c9_ach.id) ∈ (GamificationService.evaluate_and_award zero_stats [c9_ach] []
        (some 7) empty_ledger).1.user_achievements ↔
      (7, c9_ach.id) ∈ empty_ledger.user_achievements) :=
  ⟨by decide,
   (c9_unknown_rule_fails_closed c9_ach zero_stats [c9_ach] [] 7 empty_ledger
     (by decide) (by decide)).1,
   (c9_unknown_rule_fails_closed c9_ach zero_stats [c9_ach] [] 7 empty_ledger
     (by decide) (by decide)).2⟩

/-! ## C2: reported badges vs newly inserted award rows -/

theorem find_badge_id {badges : List Badge} {bid : Nat} {bd : Badge}
    (h : BadgeRepository.find_by_id badges bid = some bd) : bd.id = bid := by
  have := List.find?_some h
  simpa using this

theorem badges_loop_reported_iff (badges : List Badge) (u b : Nat) (bids : List Nat) :
    ∀ led : Ledger,
      ((∃ e ∈ (GamificationService.award_badges_loop badges u bids led).2, e.badge_id = b)
        ↔ ((u, b) ∈ (GamificationService.award_badges_loop badges u bids led).1.user_badges ∧
           (u, b) ∉ led.user_badges ∧ ∃ bd ∈ badges, bd.id = b)) := by
  induction bids with
  | nil =>
      intro led
      constructor
      · rintro ⟨e, he, -⟩
        exact absurd he (List.not_mem_nil e)
      · rintro ⟨h1, h2, -⟩
        exact absurd h1 h2
  | cons bid rest ih =>
      intro led
      by_cases hmem : (u, bid) ∈ led.user_badges
      · have haw : UserProgressRepository.award_badge led u bid = (led, false) := by
          simp [UserProgressRepository.award_badge, hmem]
        have hstep : GamificationService.award_badges_loop badges u (bid :: rest) led =
            ((GamificationService.award_badges_loop badges u rest led).1,
             [] ++ (GamificationService.award_badges_loop badges u rest led).2) := by
          simp [GamificationService.award_badges_loop, haw]
        rw [hstep]
        simpa using ih led
      · set led1 : Ledger := { led with user_badges := led.user_badges ++ [(u, bid)] }
          with hled1
        have haw : UserProgressRepository.award_badge led u bid = (led1, true) := by
          simp [UserProgressRepository.award_badge, hmem, hled1]
        have hstep : GamificationService.award_badges_loop badges u (bid :: rest) led =
            ((GamificationService.award_badges_loop badges u rest led1).1,
             (match BadgeRepository.find_by_id badges bid with
              | some bd => [badge_info bd]
              | none => []) ++ (GamificationService.award_badges_loop badges u rest led1).2) := by
          simp [GamificationService.award_badges_loop, haw]
        rw [hstep]
        have hmem1 : (u, bid) ∈ led1.user_badges := by
          rw [hled1]
          simp
        cases hfind : BadgeRepository.find_by_id badges bid with
        | some bd =>
            have hbd_id : bd.id = bid := find_badge_id hfind
            have hbd_mem : bd ∈ badges := List.mem_of_find?_eq_some hfind
            constructor
            · rintro ⟨e, he, heq⟩
              rcases List.mem_cons.mp he with rfl | hrest2
              · have hb : b = bid := by
                  rw [← heq]
                  simpa [badge_info] using hbd_id
                subst hb
                refine ⟨mem_ub_award_badges_loop badges u rest led1 (u, b) hmem1, hmem,
                  bd, hbd_mem, hbd_id⟩
              · rcases (ih led1).mp ⟨e, hrest2, heq⟩ with ⟨h1, h2, h3⟩
                refine ⟨h1, ?_, h3⟩
                intro hcmem
                apply h2
                rw [hled1]
                simp only [List.mem_append]
                exact Or.inl hcmem
            · rintro ⟨h1, h2, h3⟩
              by_cases hb : b = bid
              · subst hb
                exact ⟨badge_info bd, List.mem_cons_self _ _, by simpa [badge_info] using hbd_id⟩
              · have h2' : (u, b) ∉ led1.user_badges := by
                  rw [hled1]
                  intro hcm
                  rcases List.mem_append.mp hcm with hcm | hcm
                  · exact h2 hcm
                  · simp only [List.mem_singleton, Prod.mk.injEq] at hcm
                    exact hb hcm.2
                obtain ⟨e, he, heq⟩ := (ih led1).mpr ⟨h1, h2', h3⟩
                exact ⟨e, List.mem_cons_of_mem _ he, heq⟩
        | none =>
            constructor
            · rintro ⟨e, he, heq⟩
              simp only [List.nil_append] at he
              rcases (ih led1).mp ⟨e, he, heq⟩ with ⟨h1, h2, h3⟩
              refine ⟨h1, ?_, h3⟩
              intro hcmem
              apply h2
              rw [hled1]
              simp only [List.mem_append]
              exact Or.inl hcmem
            · rintro ⟨h1, h2, h3⟩
              by_cases hb : b = bid
              · exfalso
                subst hb
                obtain ⟨bd, hbdm, hbdid⟩ := h3
                have hno := List.find?_eq_none.mp hfind bd hbdm
                simp [hbdid] at hno
              · have h2' : (u, b) ∉ led1.user_badges := by
                  rw [hled1]
                  intro hcm
                  rcases List.mem_append.mp hcm with hcm | hcm
                  · exact h2 hcm
                  · simp only [List.mem_singleton, Prod.mk.injEq] at hcm
                    exact hb hcm.2
                obtain ⟨e, he, heq⟩ := (ih led1).mpr ⟨h1, h2', h3⟩
                exact ⟨e, List.mem_append.mpr (Or.inr he), heq⟩

theorem eval_loop_reported_iff (stats : UserStats) (badges : List Badge) (u b : Nat)
    (L : List Achievement) :
    ∀ led : Ledger,
      ((∃ e ∈ (GamificationService.eval_loop stats badges u L led).2, e.badge_id = b)
        ↔ ((u, b) ∈ (GamificationService.eval_loop stats badges u L led).1.user_badges ∧
           (u, b) ∉ led.user_badges ∧ ∃ bd ∈ badges, bd.id = b)) := by
  induction L with
  | nil =>
      intro led
      constructor
      · rintro ⟨e, he, -⟩
        exact absurd he (List.not_mem_nil e)
      · rintro ⟨h1, h2, -⟩
        exact absurd h1 h2
  | cons a rest ih =>
      intro led
      simp only [GamificationService.eval_loop]
      by_cases hhas : UserProgressRepository.has_achievement led u a.id = true
      · rw [if_pos hhas]
        exact ih led
      · rw [if_neg hhas]
        by_cases hsat : GamificationService.rule_satisfied a stats = true
        · rw [if_neg (by simp [hsat])]
          have hc : led.user_achievements.contains (u, a.id) = false := by
            simpa [UserProgressRepository.has_achievement] using hhas
          have hnm : (u, a.id) ∉ led.user_achievements := by simpa using hc
          have h2' : (UserProgressRepository.award_achievement led u a.id).2 = true := by
            simp [UserProgressRepository.award_achievement, hnm]
          rw [if_neg (by simp [h2'])]
          have hub1 : (UserProgressRepository.award_achievement led u a.id).1.user_badges =
              led.user_badges := award_achievement_ub led u a.id
          have hbl := badges_loop_reported_iff badges u b a.badge_ids
            (UserProgressRepository.award_achievement led u a.id).1
          have hev := ih (GamificationService.award_badges_loop badges u a.badge_ids
            (UserProgressRepository.award_achievement led u a.id).1).1
          constructor
          · rintro ⟨e, he, heq⟩
            rcases List.mem_append.mp he with h1 | h1
            · rcases hbl.mp ⟨e, h1, heq⟩ with ⟨hm, hnin, hE⟩
              refine ⟨mem_ub_eval_loop stats badges u rest _ (u, b) hm, ?_, hE⟩
              rw [hub1] at hnin
              exact hnin
            · rcases hev.mp ⟨e, h1, heq⟩ with ⟨hm, hnin, hE⟩
              refine ⟨hm, ?_, hE⟩
              intro hcmem
              apply hnin
              apply mem_ub_award_badges_loop
              rw [hub1]
              exact hcmem
          · rintro ⟨hm, hnin, hE⟩
            by_cases hmid : (u, b) ∈ (GamificationService.award_badges_loop badges u
                a.badge_ids (UserProgressRepository.award_achievement led u a.id).1).1.user_badges
            · obtain ⟨e, he, heq⟩ := hbl.mpr ⟨hmid, by rw [hub1]; exact hnin, hE⟩
              exact ⟨e, List.mem_append.mpr (Or.inl he), heq⟩
            · obtain ⟨e, he, heq⟩ := hev.mpr ⟨hm, hmid, hE⟩
              exact ⟨e, List.mem_append.mpr (Or.inr he), heq⟩
        · have hsf : GamificationService.rule_satisfied a stats = false := by
            cases hx : GamificationService.rule_satisfied a stats
            · rfl
            · exact absurd hx hsat
          rw [if_pos (by simp [hsf])]
          exact ih led

/-- C2 counterexample: the claim's "if and only if" fails when an awarded
achievement links a badge id absent from the badges table (reachable, since
the runtime never enables SQLite foreign-key enforcement and badges can be
deleted): the UserBadge row (7, 5) is newly inserted by this call, yet the
returned newly-earned list is empty. -/
theorem c2_counterexample :
    (GamificationService.evaluate_and_award zero_stats c2_cat [] (some 7) empty_ledger).2
      = [] ∧
    (7, 5) ∈ (GamificationService.evaluate_and_award zero_stats c2_cat [] (some 7)
        empty_ledger).1.user_badges ∧
    (7, 5) ∉ empty_ledger.user_badges := by
  refine ⟨?_, ?_, ?_⟩ <;> decide

/-- C2 (amended): a badge id appears in the newly-earned list returned by
`evaluate_and_award` iff its UserBadge row was newly inserted during the call
AND the badge has a record in the badges table; in particular a badge the
user already held (possibly via a different achievement) is never reported. -/
theorem c2_newly_earned_iff (stats : UserStats) (cat : List Achievement)
    (badges : List Badge) (u : Nat) (led : Ledger) (b : Nat) :
    (∃ e ∈ (GamificationService.evaluate_and_award stats cat badges (some u) led).2,
        e.badge_id = b)
      ↔ ((u, b) ∈ (GamificationService.evaluate_and_award stats cat badges
            (some u) led).1.user_badges ∧
         (u, b) ∉ led.user_badges ∧ ∃ bd ∈ badges, bd.id = b) := by
  simp only [GamificationService.evaluate_and_award]
  exact eval_loop_reported_iff stats badges u b _ led

/-! ## C3: the 24h edit lock in update_story -/

theorem update_story_run (st : List StoryPost) (now i : Nat) (story : StoryPost)
    (cap desc cat priv : String) (tags groups : List String)
    (hfind : find_by_id st i = some story) (hdel : story.is_deleted = false)
    (hval : (StoryService.apply_updates story (story.is_editable now) (some cap) (some desc)
      (some cat) (some priv) (some tags) (some groups)).validate = []) :
    StoryService.update_story st now i (some cap) (some desc) (some cat) (some priv)
      (some tags) (some groups) =
    (update_matching st i (fun _ =>
        { StoryService.apply_updates story (story.is_editable now) (some cap) (some desc)
            (some cat) (some priv) (some tags) (some groups) with updated_at := now }),
     some { StoryService.apply_updates story (story.is_editable now) (some cap) (some desc)
            (some cat) (some priv) (some tags) (some groups) with updated_at := now },
     []) := by
  have hid := find_by_id_some_id hfind
  have hrm := row_matched_of_find hfind
  have hsid : (StoryService.apply_updates story (story.is_editable now) (some cap) (some desc)
      (some cat) (some priv) (some tags) (some groups)).id = some i := by
    cases story.is_editable now <;> exact hid
  simp only [StoryService.update_story, hfind]
  rw [if_neg (by simp [hdel])]
  rw [hval]
  rw [if_pos (by rfl)]
  simp only [StoryRepository.update, hsid]
  rw [hrm]
  rw [if_pos (by rfl)]

/-- C3: for an existing, non-deleted story whose age is at least 24 hours,
`update_story` silently keeps the stored caption and description while
storing the supplied category, privacy, (cleaned) tags and allowed_groups,
and returns no error; for a story younger than 24 hours a supplied caption is
stored (trimmed).  The validity hypotheses say the update passes entity
validation, as the claim presumes (an invalid update stores nothing). -/
theorem c3_edit_lock (st : List StoryPost) (now i : Nat) (story : StoryPost)
    (cap desc cat priv : String) (tags groups : List String)
    (hfind : find_by_id st i = some story) (hdel : story.is_deleted = false) :
    (86400 ≤ now - story.created_at →
      (StoryService.apply_updates story false (some cap) (some desc) (some cat) (some priv)
        (some tags) (some groups)).validate = [] →
      ((StoryService.update_story st now i (some cap) (some desc) (some cat) (some priv)
          (some tags) (some groups)).2.2 = [] ∧
       (find_by_id (StoryService.update_story st now i (some cap) (some desc) (some cat)
          (some priv) (some tags) (some groups)).1 i).map (fun x => x.caption)
         = some story.caption ∧
       (find_by_id (StoryService.update_story st now i (some cap) (some desc) (some cat)
          (some priv) (some tags) (some groups)).1 i).map (fun x => x.description)
         = some story.description ∧
       (find_by_id (StoryService.update_story st now i (some cap) (some desc) (some cat)
          (some priv) (some tags) (some groups)).1 i).map (fun x => x.category)
         = some cat ∧
       (find_by_id (StoryService.update_story st now i (some cap) (some desc) (some cat)
          (some priv) (some tags) (some groups)).1 i).map (fun x => x.privacy)
         = some priv ∧
       (find_by_id (StoryService.update_story st now i (some cap) (some desc) (some cat)
          (some priv) (some tags) (some groups)).1 i).map (fun x => x.tags)
         = some (StoryService.clean_input_tags tags) ∧
       (find_by_id (StoryService.update_story st now i (some cap) (some desc) (some cat)
          (some priv) (some tags) (some groups)).1 i).map (fun x => x.allowed_groups)
         = some groups)) ∧
    (now - story.created_at < 86400 →
      (StoryService.apply_updates story true (some cap) (some desc) (some cat) (some priv)
        (some tags) (some groups)).validate = [] →
      ((StoryService.update_story st now i (some cap) (some desc) (some cat) (some priv)
          (some tags) (some groups)).2.2 = [] ∧
       (find_by_id (StoryService.update_story st now i (some cap) (some desc) (some cat)
          (some priv) (some tags) (some groups)).1 i).map (fun x => x.caption)
         = some (py_strip cap))) := by
  have hid := find_by_id_some_id hfind
  constructor
  · intro h24 hval
    have hed : story.is_editable now = false := by
      have hn : ¬(now - story.created_at < EDIT_LOCK_HOURS * 3600) := by
        simp only [EDIT_LOCK_HOURS]
        omega
      exact decide_eq_false hn
    have hval' : (StoryService.apply_updates story (story.is_editable now) (some cap)
        (some desc) (some cat) (some priv) (some tags) (some groups)).validate = [] := by
      rw [hed]
      exact hval
    have hrun := update_story_run st now i story cap desc cat priv tags groups hfind hdel hval'
    rw [hed] at hrun
    have key : find_by_id (update_matching st i (fun _ =>
        { StoryService.apply_updates story false (some cap) (some desc) (some cat) (some priv)
            (some tags) (some groups) with updated_at := now })) i =
        (find_by_id st i).map (fun _ =>
        { StoryService.apply_updates story false (some cap) (some desc) (some cat) (some priv)
            (some tags) (some groups) with updated_at := now }) :=
      find_by_id_update_matching (fun r hr => hid)
    refine ⟨?_, ?_, ?_, ?_, ?_, ?_, ?_⟩ <;>
      rw [hrun] <;>
      try rw [key, hfind]
    all_goals rfl
  · intro h24 hval
    have hed : story.is_editable now = true := by
      have hn : now - story.created_at < EDIT_LOCK_HOURS * 3600 := by
        simp only [EDIT_LOCK_HOURS]
        omega
      exact decide_eq_true hn
    have hval' : (StoryService.apply_updates story (story.is_editable now) (some cap)
        (some desc) (some cat) (some priv) (some tags) (some groups)).validate = [] := by
      rw [hed]
      exact hval
    have hrun := update_story_run st now i story cap desc cat priv tags groups hfind hdel hval'
    rw [hed] at hrun
    have key : find_by_id (update_matching st i (fun _ =>
        { StoryService.apply_updates story true (some cap) (some desc) (some cat) (some priv)
            (some tags) (some groups) with updated_at := now })) i =
        (find_by_id st i).map (fun _ =>
        { StoryService.apply_updates story true (some cap) (some desc) (some cat) (some priv)
            (some tags) (some groups) with updated_at := now }) :=
      find_by_id_update_matching (fun r hr => hid)
    constructor
    · rw [hrun]
    · rw [hrun, key, hfind]
      rfl

/-- C3 witness: a concrete story created at t=0; at t=90000 (>24h) the
caption stays "Old caption" while the category changes, and at t=100 (<24h)
the caption becomes the new trimmed caption. -/
theorem c3_edit_lock_witness :
    find_by_id c3_store 1 = some c3_story ∧ c3_story.is_deleted = false ∧
    86400 ≤ 90000 - c3_story.created_at ∧ 100 - c3_story.created_at < 86400 ∧
    ((find_by_id (StoryService.update_story c3_store 90000 1 (some "New caption")
        (some "Another long description here.") (some "Travel Adventures") (some "Public")
        (some ["tag_1"]) (some [])).1 1).map (fun x => x.caption) = some c3_story.caption) ∧
    ((find_by_id (StoryService.update_story c3_store 90000 1 (some "New caption")
        (some "Another long description here.") (some "Travel Adventures") (some "Public")
        (some ["tag_1"]) (some [])).1 1).map (fun x => x.category)
      = some "Travel Adventures") ∧
    ((find_by_id (StoryService.update_story c3_store 100 1 (some "New caption")
        (some "Another long description here.") (some "Travel Adventures") (some "Public")
        (some ["tag_1"]) (some [])).1 1).map (fun x => x.caption)
      = some (py_strip "New caption")) :=
  ⟨rfl, rfl, by decide, by decide,
   ((c3_edit_lock c3_store 90000 1 c3_story "New caption" "Another long description here."
       "Travel Adventures" "Public" ["tag_1"] [] rfl rfl).1 (by decide) (by decide)).2.1,
   ((c3_edit_lock c3_store 90000 1 c3_story "New caption" "Another long description here."
       "Travel Adventures" "Public" ["tag_1"] [] rfl rfl).1 (by decide) (by decide)).2.2.2.1,
   ((c3_edit_lock c3_store 100 1 c3_story "New caption" "Another long description here."
       "Travel Adventures" "Public" ["tag_1"] [] rfl rfl).2 (by decide) (by decide)).2⟩
